import Mathlib

/-!
# Upload / status-polling client (`webapi/static/app.js`)

A shallow embedding of the browser script.  The script owns two module
variables (`currentJobId`, `pollTimer`) and writes to three DOM elements (the
status line, the progress bar, the download link).  Its two `async` functions
are split at their `await` points: the part that runs up to the `fetch` call
(`pollStatusSend`, `submitSend`) and the part that runs once the request has
settled (`pollStatusResume`, `submitResume`).  The browser pieces the script
relies on (the interval-timer table, the network) are explicit fields of the
state.

Numbers are modelled as rationals: `Math.max` and `Math.min` return one of
their arguments, so no rounding is involved in `setProgress`.
-/

namespace SizeReducer

/-! ## JavaScript values -/

/-- The value held by `currentJobId`: `null` initially, afterwards whatever
`payload.job_id` was (a string, or `undefined` when the field is missing). -/
inductive JsId where
  | null
  | undefined
  | str (s : String)
  deriving DecidableEq, Repr

/-- Rendering of a job id inside a template literal. -/
def JsId.render : JsId → String
  | .null => "null"
  | .undefined => "undefined"
  | .str s => s

/-- Reading the field `job_id` of a parsed payload. -/
def JsId.ofField : Option String → JsId
  | none => .undefined
  | some s => .str s

/-- Truthiness of an optional string field: absent and `""` are falsy. -/
def truthyStr : Option String → Bool
  | none => false
  | some s => s != ""

/-- The expression `x || d` for an optional string field `x`. -/
def strOr (x : Option String) (d : String) : String :=
  match x with
  | none => d
  | some s => if s = "" then d else s

/-- The expression `x || 0` for an optional numeric field `x`. -/
def numOr0 (x : Option ℚ) : ℚ :=
  match x with
  | none => 0
  | some v => if v = 0 then 0 else v

/-- Truthiness of `pollTimer`: `null` and the number `0` are falsy. -/
def truthyTimer : Option Nat → Bool
  | none => false
  | some h => h != 0

/-! ## Network -/

/-- Body of `GET /api/status/{jobId}`. -/
structure StatusPayload where
  status : String
  progress : Option ℚ := none
  download_url : Option String := none
  error : Option String := none
  deriving DecidableEq

/-- Body of `POST /api/upload` (success carries `job_id`, failure `detail`). -/
structure UploadPayload where
  job_id : Option String := none
  detail : Option String := none
  deriving DecidableEq

/-- How a `fetch` settles: the promise rejects, or it resolves to a response
with an HTTP status code and a body; `body = none` means `response.json()`
rejects. -/
inductive FetchResult (β : Type) where
  | rejected
  | response (code : Nat) (body : Option β)
  deriving DecidableEq

/-- The getter `response.ok`. -/
def responseOk (code : Nat) : Bool :=
  decide (200 ≤ code) && decide (code ≤ 299)

/-- A request handed to `fetch`. -/
structure Request where
  method : String
  url : String
  form : List (String × String) := []
  deriving DecidableEq, Repr

/-! ## State -/

/-- One entry of the browser's table of armed interval timers. -/
structure Timer where
  id : Nat
  period : Nat
  deriving DecidableEq, Repr

/-- The parts of the page the script writes to. -/
structure Dom where
  statusText : String
  barWidth : ℚ
  downloadHref : String
  downloadDisplay : String
  deriving DecidableEq

/-- Whole client state: page, module variables, timer table, network. -/
structure State where
  dom : Dom
  currentJobId : JsId
  pollTimer : Option Nat
  timers : List Timer
  nextHandle : Nat
  requests : List Request
  pendingUploads : Nat
  pendingPolls : List JsId
  deriving DecidableEq

/-- State right after the script has been loaded into a page `d`. -/
def init (d : Dom) : State :=
  { dom := d, currentJobId := .null, pollTimer := none, timers := [],
    nextHandle := 1, requests := [], pendingUploads := 0, pendingPolls := [] }

/-! ## The script -/

/-- Source `setStatus` (lines 9-11). -/
def setStatus (text : String) (s : State) : State :=
  { s with dom := { s.dom with statusText := text } }

/-- Source `setProgress` (lines 13-16); `barWidth` is the number in front of
the percent sign. -/
def setProgress (value : ℚ) (s : State) : State :=
  let clamped := max 0 (min 100 value)
  { s with dom := { s.dom with barWidth := clamped } }

/-- Browser `clearInterval`: removes the handle from the timer table; `null`
and unknown handles are ignored. -/
def clearInterval (h : Option Nat) (s : State) : State :=
  match h with
  | none => s
  | some t => { s with timers := s.timers.filter (fun x => x.id != t) }

/-- Browser `setInterval`: arms a timer under a fresh handle, returns it.
Handles are positive integers, so the counter `nextHandle` starts at `1`. -/
def setInterval (period : Nat) (s : State) : Nat × State :=
  (s.nextHandle,
   { s with timers := s.timers ++ [{ id := s.nextHandle, period := period }],
            nextHandle := s.nextHandle + 1 })

/-- Source `pollStatus`, line 20 up to the first `await`. -/
def pollStatusSend (jobId : JsId) (s : State) : State :=
  { s with
    requests := s.requests ++ [{ method := "GET", url := "/api/status/" ++ jobId.render }],
    pendingPolls := s.pendingPolls ++ [jobId] }

/-- Source `pollStatus`, lines 21-47: what runs once the status request has
settled. -/
def pollStatusResume (jobId : JsId) (r : FetchResult StatusPayload) (s : State) : State :=
  match r with
  | .rejected => setStatus "Status check failed." s
  | .response code body =>
    if !responseOk code then
      setStatus "Unable to fetch status." s
    else
      match body with
      | none => setStatus "Status check failed." s
      | some payload =>
        let s1 := setProgress (numOr0 payload.progress) s
        if payload.status = "done" ∧ truthyStr payload.download_url = true then
          let s2 := setStatus ("Done. Job " ++ jobId.render ++ " ready.") s1
          let s3 := { s2 with dom := { s2.dom with downloadHref := payload.download_url.getD "" } }
          let s4 := { s3 with dom := { s3.dom with downloadDisplay := "inline-flex" } }
          let s5 := clearInterval s4.pollTimer s4
          { s5 with pollTimer := none }
        else if payload.status = "error" then
          let s2 := setStatus ("Error: " ++ strOr payload.error "Unknown error") s1
          let s3 := clearInterval s2.pollTimer s2
          { s3 with pollTimer := none }
        else
          setStatus ("Job " ++ jobId.render ++ " is " ++ payload.status ++ ".") s1

/-- Source submit handler, lines 51-72: up to the `await fetch`. -/
def submitSend (files : List String) (profile : String) (s : State) : State :=
  match files with
  | [] => setStatus "Select a file first." s
  | file :: _ =>
    let s1 := setStatus "Uploading..." s
    let s2 := setProgress 0 s1
    let s3 := { s2 with dom := { s2.dom with downloadDisplay := "none" } }
    { s3 with
      requests := s3.requests ++
        [{ method := "POST", url := "/api/upload", form := [("file", file), ("profile", profile)] }],
      pendingUploads := s3.pendingUploads + 1 }

/-- Source submit handler, lines 74-90: what runs once the upload request has
settled. -/
def submitResume (r : FetchResult UploadPayload) (s : State) : State :=
  match r with
  | .rejected => setStatus "Upload failed." s
  | .response code body =>
    if !responseOk code then
      let detail := match body with
        | none => none
        | some payload => payload.detail
      setStatus (strOr detail "Upload failed.") s
    else
      match body with
      | none => setStatus "Upload failed." s
      | some payload =>
        let s1 := { s with currentJobId := JsId.ofField payload.job_id }
        let s2 := setStatus ("Uploaded. Job " ++ s1.currentJobId.render ++ " queued.") s1
        let s3 := if truthyTimer s2.pollTimer then clearInterval s2.pollTimer s2 else s2
        let hs := setInterval 2000 s3
        { hs.2 with pollTimer := some hs.1 }

/-! ## Event loop -/

/-- Everything the script reacts to. -/
inductive Event where
  | submit (files : List String) (profile : String)
  | uploadSettled (r : FetchResult UploadPayload)
  | tick (h : Nat)
  | pollSettled (jobId : JsId) (r : FetchResult StatusPayload)
  deriving DecidableEq

/-- One turn of the event loop.  A settlement is delivered only for a request
that is outstanding, a tick only for an armed timer; the timer callback is
`() => pollStatus(currentJobId)` (line 87), which reads `currentJobId` when it
fires. -/
def step (s : State) : Event → State
  | .submit files profile => submitSend files profile s
  | .uploadSettled r =>
    if 0 < s.pendingUploads then
      submitResume r { s with pendingUploads := s.pendingUploads - 1 }
    else s
  | .tick h =>
    if h ∈ s.timers.map Timer.id then pollStatusSend s.currentJobId s else s
  | .pollSettled jobId r =>
    if jobId ∈ s.pendingPolls then
      pollStatusResume jobId r { s with pendingPolls := s.pendingPolls.erase jobId }
    else s

/-- Running a trace of events. -/
def run (s : State) (tr : List Event) : State :=
  tr.foldl step s

/-- States the client can be in: some page, some interleaving of events. -/
def Reachable (s : State) : Prop :=
  ∃ d tr, run (init d) tr = s

/-- An upload settlement that reaches line 81 (HTTP ok, parsable body). -/
def Event.isUploadSuccess : Event → Bool
  | .uploadSettled (.response code (some _)) => responseOk code
  | _ => false

/-- An upload settlement that reaches line 81 and stores the job id `a` in
`currentJobId`. -/
def Event.assignsJob (a : JsId) : Event → Bool
  | .uploadSettled (.response code (some payload)) =>
    responseOk code && decide (JsId.ofField payload.job_id = a)
  | _ => false

/-- Handles of the armed interval timers. -/
def armed (s : State) : List Nat :=
  s.timers.map Timer.id

/-- A page as the script may find it: empty status line, empty bar, hidden
download link. -/
def blankPage : Dom :=
  { statusText := "", barWidth := 0, downloadHref := "", downloadDisplay := "none" }

/-- A session in progress: a file was submitted, the server answered with job
`j1`, the timer (handle `1`) fired once and its status request is outstanding. -/
def pollingState : State :=
  run (init blankPage)
    [.submit ["a.png"] "web",
     .uploadSettled (.response 200 (some { job_id := some "j1" })),
     .tick 1]

/-- A file has been submitted and its upload request is outstanding. -/
def uploadingState : State :=
  run (init blankPage) [.submit ["a.png"] "web"]

/-- Job `a` is being polled and one status request for it is outstanding; a
second file was then submitted and the server has answered with job `b`. -/
def supersededState : State :=
  run (init blankPage)
    [.submit ["a.png"] "web",
     .uploadSettled (.response 200 (some { job_id := some "a" })),
     .tick 1,
     .submit ["b.png"] "web",
     .uploadSettled (.response 200 (some { job_id := some "b" }))]

/-- Job `a` is being polled, no status request is outstanding, and a second
file has been submitted whose upload request is outstanding. -/
def resubmittedState : State :=
  run (init blankPage)
    [.submit ["a.png"] "web",
     .uploadSettled (.response 200 (some { job_id := some "a" })),
     .tick 1,
     .pollSettled (.str "a") (.response 200 (some { status := "processing", progress := some 10 })),
     .submit ["b.png"] "web"]

/-! ## Invariants -/

/-- What holds of the timer bookkeeping in every state the client can reach:
handles are positive and below the next fresh handle, and the timer table holds
exactly the timer named by `pollTimer` (nothing when `pollTimer` is `null`). -/
structure Inv (s : State) : Prop where
  handle_pos : 0 < s.nextHandle
  timer_pos : ∀ h, s.pollTimer = some h → 0 < h
  timer_lt : ∀ h, s.pollTimer = some h → h < s.nextHandle
  timers_eq : s.timers =
    match s.pollTimer with
    | none => []
    | some h => [{ id := h, period := 2000 }]

/-- A handle that has been given out and is no longer the poll timer. -/
def Retired (h : Nat) (s : State) : Prop :=
  h < s.nextHandle ∧ s.pollTimer ≠ some h

/-! ## Basic facts about the helpers -/

theorem responseOk_500 : responseOk 500 = false := by decide

theorem responseOk_200 : responseOk 200 = true := by decide

@[simp] theorem clearInterval_dom (h : Option Nat) (s : State) :
    (clearInterval h s).dom = s.dom := by
  cases h <;> rfl

@[simp] theorem clearInterval_pollTimer (h : Option Nat) (s : State) :
    (clearInterval h s).pollTimer = s.pollTimer := by
  cases h <;> rfl

@[simp] theorem clearInterval_currentJobId (h : Option Nat) (s : State) :
    (clearInterval h s).currentJobId = s.currentJobId := by
  cases h <;> rfl

@[simp] theorem clearInterval_nextHandle (h : Option Nat) (s : State) :
    (clearInterval h s).nextHandle = s.nextHandle := by
  cases h <;> rfl

@[simp] theorem clearInterval_requests (h : Option Nat) (s : State) :
    (clearInterval h s).requests = s.requests := by
  cases h <;> rfl

@[simp] theorem clearInterval_pendingUploads (h : Option Nat) (s : State) :
    (clearInterval h s).pendingUploads = s.pendingUploads := by
  cases h <;> rfl

@[simp] theorem clearInterval_pendingPolls (h : Option Nat) (s : State) :
    (clearInterval h s).pendingPolls = s.pendingPolls := by
  cases h <;> rfl

theorem clearInterval_armed (h : Nat) (s : State) :
    h ∉ armed (clearInterval (some h) s) := by
  simp [armed, clearInterval, List.mem_map, List.mem_filter]

theorem clamp_bounds (v : ℚ) : 0 ≤ max 0 (min 100 v) ∧ max 0 (min 100 v) ≤ 100 := by
  constructor
  · exact le_max_left _ _
  · exact max_le (by norm_num) (min_le_left _ _)

/-! ## Progress bar -/

/-- C1: for every numeric value `v`, `setProgress v` renders the width
`max 0 (min 100 v)`: `0` below zero, `100` above one hundred, `v` itself in
between, hence always inside `[0, 100]`; the same holds for the width rendered
by `pollStatus` from any parsable successful response. -/
theorem setProgress_clamps (v : ℚ) (s : State) :
    (setProgress v s).dom.barWidth = max 0 (min 100 v) ∧
    (v < 0 → (setProgress v s).dom.barWidth = 0) ∧
    (100 < v → (setProgress v s).dom.barWidth = 100) ∧
    (0 ≤ v → v ≤ 100 → (setProgress v s).dom.barWidth = v) ∧
    (0 ≤ (setProgress v s).dom.barWidth ∧ (setProgress v s).dom.barWidth ≤ 100) ∧
    (∀ (j : JsId) (code : Nat) (p : StatusPayload), responseOk code = true →
      p.progress = some v →
      (pollStatusResume j (.response code (some p)) s).dom.barWidth = max 0 (min 100 v)) := by
  have hw : (setProgress v s).dom.barWidth = max 0 (min 100 v) := rfl
  refine ⟨hw, ?_, ?_, ?_, ?_, ?_⟩
  · intro h
    rw [hw, min_eq_right (by linarith), max_eq_left h.le]
  · intro h
    rw [hw, min_eq_left h.le, max_eq_right (by norm_num)]
  · intro h0 h1
    rw [hw, min_eq_right h1, max_eq_right h0]
  · rw [hw]; exact clamp_bounds v
  · intro j code p hok hp
    have hn : numOr0 (some v) = v := by
      simp only [numOr0]
      split_ifs with h0
      · exact h0.symm
      · rfl
    simp only [pollStatusResume, hok, hp, hn, Bool.not_true, Bool.false_eq_true, if_false]
    split_ifs <;> simp [setStatus, setProgress]

theorem setProgress_clamps_witness :
    (setProgress 150 (init blankPage)).dom.barWidth = 100 ∧
    (setProgress (-3) (init blankPage)).dom.barWidth = 0 ∧
    (setProgress (75 / 2) (init blankPage)).dom.barWidth = 75 / 2 :=
  ⟨(setProgress_clamps 150 (init blankPage)).2.2.1 (by norm_num),
   (setProgress_clamps (-3) (init blankPage)).2.1 (by norm_num),
   (setProgress_clamps (75 / 2) (init blankPage)).2.2.2.1 (by norm_num) (by norm_num)⟩

/-! ## Handling a status response -/

theorem numOr0_eq_getD (x : Option ℚ) : numOr0 x = x.getD 0 := by
  cases x with
  | none => rfl
  | some v =>
    simp only [numOr0, Option.getD_some]
    split_ifs with h0
    · exact h0.symm
    · rfl

theorem pollStatusResume_ok (j : JsId) (code : Nat) (p : StatusPayload) (s : State)
    (hok : responseOk code = true) :
    pollStatusResume j (.response code (some p)) s =
      if p.status = "done" ∧ truthyStr p.download_url = true then
        { s with
          dom := { statusText := "Done. Job " ++ j.render ++ " ready.",
                   barWidth := max 0 (min 100 (p.progress.getD 0)),
                   downloadHref := p.download_url.getD "",
                   downloadDisplay := "inline-flex" },
          timers := (clearInterval s.pollTimer s).timers,
          pollTimer := none }
      else if p.status = "error" then
        { s with
          dom := { s.dom with
                   statusText := "Error: " ++ strOr p.error "Unknown error",
                   barWidth := max 0 (min 100 (p.progress.getD 0)) },
          timers := (clearInterval s.pollTimer s).timers,
          pollTimer := none }
      else
        { s with
          dom := { s.dom with
                   statusText := "Job " ++ j.render ++ " is " ++ p.status ++ ".",
                   barWidth := max 0 (min 100 (p.progress.getD 0)) } } := by
  simp only [pollStatusResume, hok, Bool.not_true, Bool.false_eq_true, if_false,
    numOr0_eq_getD]
  split_ifs <;> (cases hp : s.pollTimer <;> simp [setStatus, setProgress, clearInterval, hp])

theorem not_armed_after_clear (s : State) (h : Nat) (hp : s.pollTimer = some h) :
    h ∉ (clearInterval s.pollTimer s).timers.map Timer.id := by
  rw [hp]
  exact clearInterval_armed h s

/-- C4, as stated, fails: a successful response with status `done` but no
`download_url` does not stop polling; the timer stays armed and `pollTimer`
keeps its handle. -/
theorem done_without_url_keeps_polling :
    pollingState.pollTimer = some 1 ∧ armed pollingState = [1] ∧
    responseOk 200 = true ∧
    (pollStatusResume (.str "j1") (.response 200 (some { status := "done" }))
      pollingState).pollTimer = some 1 ∧
    armed (pollStatusResume (.str "j1") (.response 200 (some { status := "done" }))
      pollingState) = [1] ∧
    (pollStatusResume (.str "j1") (.response 200 (some { status := "done" }))
      pollingState).dom.statusText = "Job j1 is done." := by
  decide

/-- C4 (amended): a successful response stops polling when its status is
`error`, or `done` together with a non-empty `download_url`: the handle held
by `pollTimer` is removed from the timer table and `pollTimer` becomes `null`,
whatever the other fields are.  A `done` response without a download URL
leaves `pollTimer` and the timer table as they were. -/
theorem pollStatus_terminal_stops (j : JsId) (code : Nat) (p : StatusPayload) (s : State)
    (hok : responseOk code = true) :
    ((p.status = "error" ∨ (p.status = "done" ∧ truthyStr p.download_url = true)) →
      (pollStatusResume j (.response code (some p)) s).pollTimer = none ∧
      (pollStatusResume j (.response code (some p)) s).timers =
        (clearInterval s.pollTimer s).timers ∧
      (∀ h, s.pollTimer = some h →
        h ∉ armed (pollStatusResume j (.response code (some p)) s))) ∧
    (p.status = "done" → truthyStr p.download_url = false →
      (pollStatusResume j (.response code (some p)) s).pollTimer = s.pollTimer ∧
      (pollStatusResume j (.response code (some p)) s).timers = s.timers) := by
  rw [pollStatusResume_ok j code p s hok]
  constructor
  · intro hterm
    have key : ∀ h, s.pollTimer = some h →
        h ∉ List.map Timer.id (clearInterval s.pollTimer s).timers :=
      fun h hp => not_armed_after_clear s h hp
    split_ifs with h1 h2
    · exact ⟨rfl, rfl, key⟩
    · exact ⟨rfl, rfl, key⟩
    · rcases hterm with he | hd
      · exact absurd he h2
      · exact absurd hd h1
  · intro hd hu
    have h1 : ¬(p.status = "done" ∧ truthyStr p.download_url = true) := by
      rw [hu]; simp
    have h2 : ¬p.status = "error" := by
      rw [hd]; decide
    rw [if_neg h1, if_neg h2]
    exact ⟨rfl, rfl⟩

theorem pollStatus_terminal_stops_witness :
    (pollStatusResume (.str "j1")
        (.response 200 (some { status := "error", progress := some 250 }))
        pollingState).pollTimer = none ∧
    (pollStatusResume (.str "j1") (.response 200 (some { status := "done" }))
        pollingState).pollTimer = pollingState.pollTimer :=
  ⟨((pollStatus_terminal_stops (.str "j1") 200 { status := "error", progress := some 250 }
      pollingState (by decide)).1 (Or.inl rfl)).1,
   ((pollStatus_terminal_stops (.str "j1") 200 { status := "done" }
      pollingState (by decide)).2 rfl rfl).1⟩

/-- C5: a successful response with status `done` and a non-empty download URL
`u` leaves the status text "Done. Job j ready.", the download link shown as
`inline-flex` with href `u`, the handle held by `pollTimer` removed from the
timer table and `pollTimer` equal to `null`. -/
theorem pollStatus_done (j : String) (code : Nat) (p : StatusPayload) (u : String) (s : State)
    (hok : responseOk code = true) (hst : p.status = "done")
    (hu : p.download_url = some u) (hne : u ≠ "") :
    (pollStatusResume (.str j) (.response code (some p)) s).dom.statusText =
        "Done. Job " ++ j ++ " ready." ∧
    (pollStatusResume (.str j) (.response code (some p)) s).dom.downloadDisplay =
        "inline-flex" ∧
    (pollStatusResume (.str j) (.response code (some p)) s).dom.downloadHref = u ∧
    (pollStatusResume (.str j) (.response code (some p)) s).pollTimer = none ∧
    (pollStatusResume (.str j) (.response code (some p)) s).timers =
        (clearInterval s.pollTimer s).timers ∧
    (∀ h, s.pollTimer = some h →
        h ∉ armed (pollStatusResume (.str j) (.response code (some p)) s)) := by
  have htr : truthyStr p.download_url = true := by
    rw [hu]; simpa [truthyStr] using hne
  rw [pollStatusResume_ok (.str j) code p s hok, if_pos ⟨hst, htr⟩]
  refine ⟨rfl, rfl, ?_, rfl, rfl, fun h hp => not_armed_after_clear s h hp⟩
  simp [hu]

theorem pollStatus_done_witness :
    (pollStatusResume (.str "j1")
        (.response 200 (some { status := "done", download_url := some "/x" }))
        pollingState).dom.downloadHref = "/x" ∧
    (pollStatusResume (.str "j1")
        (.response 200 (some { status := "done", download_url := some "/x" }))
        pollingState).pollTimer = none ∧
    1 ∉ armed (pollStatusResume (.str "j1")
        (.response 200 (some { status := "done", download_url := some "/x" }))
        pollingState) :=
  have h := pollStatus_done "j1" 200 { status := "done", download_url := some "/x" } "/x"
    pollingState (by decide) rfl rfl (by decide)
  ⟨h.2.2.1, h.2.2.2.1, h.2.2.2.2.2 1 (by decide)⟩

/-- C6: a successful response with status `error` removes the handle held by
`pollTimer` from the timer table and sets `pollTimer` to `null`; the status
text is "Error: " followed by the payload's `error` field when that field is
present and non-empty and "Error: Unknown error" otherwise; href and
visibility of the download link are unchanged. -/
theorem pollStatus_error (j : JsId) (code : Nat) (p : StatusPayload) (s : State)
    (hok : responseOk code = true) (hst : p.status = "error") :
    (pollStatusResume j (.response code (some p)) s).pollTimer = none ∧
    (pollStatusResume j (.response code (some p)) s).timers =
        (clearInterval s.pollTimer s).timers ∧
    (∀ h, s.pollTimer = some h →
        h ∉ armed (pollStatusResume j (.response code (some p)) s)) ∧
    (∀ e, p.error = some e → e ≠ "" →
        (pollStatusResume j (.response code (some p)) s).dom.statusText = "Error: " ++ e) ∧
    (p.error = none ∨ p.error = some "" →
        (pollStatusResume j (.response code (some p)) s).dom.statusText =
          "Error: Unknown error") ∧
    (pollStatusResume j (.response code (some p)) s).dom.downloadHref = s.dom.downloadHref ∧
    (pollStatusResume j (.response code (some p)) s).dom.downloadDisplay =
        s.dom.downloadDisplay := by
  have h1 : ¬(p.status = "done" ∧ truthyStr p.download_url = true) := by
    rw [hst]; simp
  rw [pollStatusResume_ok j code p s hok, if_neg h1, if_pos hst]
  refine ⟨rfl, rfl, fun h hp => not_armed_after_clear s h hp, ?_, ?_, rfl, rfl⟩
  · intro e he hne
    simp [he, strOr, hne]
  · intro he
    rcases he with he | he <;> simp [he, strOr]

theorem pollStatus_error_witness :
    (pollStatusResume (.str "j1")
        (.response 200 (some { status := "error", error := some "bad format" }))
        pollingState).dom.statusText = "Error: " ++ "bad format" ∧
    (pollStatusResume (.str "j1")
        (.response 200 (some { status := "error", error := some "bad format" }))
        pollingState).pollTimer = none :=
  have h := pollStatus_error (.str "j1") 200 { status := "error", error := some "bad format" }
    pollingState (by decide) rfl
  ⟨h.2.2.2.1 "bad format" rfl (by decide), h.1⟩

/-- C7: a non-success HTTP response only sets the status text to
"Unable to fetch status."; a rejected request, or a successful response whose
body cannot be read, only sets it to "Status check failed."; everything else
(`pollTimer`, the timer table, the bar width, the download link) is left as it
was.  Conversely `pollStatus` changes `pollTimer` only on a successful,
readable response whose status is `done` or `error`. -/
theorem pollStatus_transient (j : JsId) (s : State) :
    (∀ code body, responseOk code = false →
      pollStatusResume j (.response code body) s =
        { s with dom := { s.dom with statusText := "Unable to fetch status." } }) ∧
    pollStatusResume j .rejected s =
        { s with dom := { s.dom with statusText := "Status check failed." } } ∧
    (∀ code, responseOk code = true →
      pollStatusResume j (.response code none) s =
        { s with dom := { s.dom with statusText := "Status check failed." } }) ∧
    (∀ r, (pollStatusResume j r s).pollTimer ≠ s.pollTimer →
      ∃ code p, r = .response code (some p) ∧ responseOk code = true ∧
        (p.status = "done" ∨ p.status = "error")) := by
  refine ⟨?_, rfl, ?_, ?_⟩
  · intro code body hno
    simp [pollStatusResume, hno, setStatus]
  · intro code hok
    simp [pollStatusResume, hok, setStatus]
  · intro r hr
    cases r with
    | rejected => exact absurd rfl hr
    | response code body =>
      cases hok : responseOk code with
      | false =>
        exfalso; apply hr
        simp [pollStatusResume, hok, setStatus]
      | true =>
        cases body with
        | none =>
          exfalso; apply hr
          simp [pollStatusResume, hok, setStatus]
        | some p =>
          refine ⟨code, p, rfl, hok, ?_⟩
          rw [pollStatusResume_ok j code p s hok] at hr
          by_contra hcon
          push_neg at hcon
          apply hr
          rw [if_neg (fun h => hcon.1 h.1), if_neg hcon.2]

theorem pollStatus_transient_witness :
    responseOk 500 = false ∧
    (pollStatusResume (.str "j1") (.response 500 none) pollingState).dom.statusText =
        "Unable to fetch status." ∧
    (pollStatusResume (.str "j1") (.response 500 none) pollingState).pollTimer = some 1 ∧
    armed (pollStatusResume (.str "j1") (.response 500 none) pollingState) = [1] := by
  have h := (pollStatus_transient (.str "j1") pollingState).1 500 none (by decide)
  refine ⟨by decide, ?_, ?_, ?_⟩
  · rw [h]
  · rw [h]; decide
  · rw [h]; decide

/-- C8: submitting with an empty file list, in any state and for any profile,
only sets the status text to "Select a file first.": no request is sent (the
request log and the count of outstanding uploads are unchanged) and the bar,
the download link, `currentJobId`, `pollTimer`, the timer table and the
outstanding status requests are as before. -/
theorem submit_without_file (profile : String) (s : State) :
    step s (.submit [] profile) =
        { s with dom := { s.dom with statusText := "Select a file first." } } ∧
    (step s (.submit [] profile)).requests = s.requests ∧
    (step s (.submit [] profile)).pendingUploads = s.pendingUploads ∧
    (step s (.submit [] profile)).dom.statusText = "Select a file first." :=
  ⟨rfl, rfl, rfl, rfl⟩

/-- C10: a successful response whose status `st` is neither `done` nor `error`
sets the status text to "Job j is st." and the bar width to the clamped
`progress` field (`0` when the field is missing) and changes nothing else:
`pollTimer`, the timer table and the download link stay as they were. -/
theorem pollStatus_in_progress (j : String) (code : Nat) (p : StatusPayload) (s : State)
    (hok : responseOk code = true) (hd : p.status ≠ "done") (he : p.status ≠ "error") :
    pollStatusResume (.str j) (.response code (some p)) s =
      { s with
        dom := { s.dom with
                 statusText := "Job " ++ j ++ " is " ++ p.status ++ ".",
                 barWidth := max 0 (min 100 (match p.progress with
                                             | some v => v
                                             | none => 0)) } } := by
  rw [pollStatusResume_ok (.str j) code p s hok, if_neg (fun h => hd h.1), if_neg he]
  cases p.progress <;> rfl

theorem pollStatus_in_progress_witness :
    pollStatusResume (.str "j1")
        (.response 200 (some { status := "processing", progress := some 130 })) pollingState =
      { pollingState with
        dom := { pollingState.dom with
                 statusText := "Job " ++ "j1" ++ " is " ++ "processing" ++ ".",
                 barWidth := max 0 (min 100 130) } } :=
  pollStatus_in_progress "j1" 200 { status := "processing", progress := some 130 }
    pollingState (by decide) (by decide) (by decide)

/-! ## The timer invariant -/

theorem Inv.at_init (d : Dom) : Inv (init d) :=
  ⟨Nat.one_pos, fun _ h => (nomatch h), fun _ h => (nomatch h), rfl⟩

theorem Inv.of_same {s s1 : State} (hs : Inv s) (hn : s1.nextHandle = s.nextHandle)
    (hp : s1.pollTimer = s.pollTimer) (ht : s1.timers = s.timers) : Inv s1 := by
  refine ⟨?_, ?_, ?_, ?_⟩
  · rw [hn]; exact hs.handle_pos
  · rw [hp]; exact hs.timer_pos
  · rw [hp, hn]; exact hs.timer_lt
  · rw [hp, ht]; exact hs.timers_eq

theorem Inv.cleared {s : State} (hs : Inv s) : (clearInterval s.pollTimer s).timers = [] := by
  have ht := hs.timers_eq
  cases hp : s.pollTimer with
  | none => rw [hp] at ht; simpa [clearInterval] using ht
  | some h =>
    rw [hp] at ht
    simp [clearInterval, ht]

theorem Inv.truthy {s : State} (hs : Inv s) (h : Nat) (hp : s.pollTimer = some h) :
    truthyTimer s.pollTimer = true := by
  have := hs.timer_pos h hp
  rw [hp]
  simp only [truthyTimer, bne_iff_ne, ne_eq]
  omega

/-- Effect of a successful, parsable upload response on a state satisfying the
invariant. -/
theorem submitResume_ok (code : Nat) (payload : UploadPayload) (s : State)
    (hok : responseOk code = true) (hs : Inv s) :
    submitResume (.response code (some payload)) s =
      { s with
        dom := { s.dom with
                 statusText := "Uploaded. Job " ++ (JsId.ofField payload.job_id).render ++
                   " queued." },
        currentJobId := JsId.ofField payload.job_id,
        pollTimer := some s.nextHandle,
        timers := [{ id := s.nextHandle, period := 2000 }],
        nextHandle := s.nextHandle + 1 } := by
  have hc := hs.cleared
  have ht := hs.timers_eq
  simp only [submitResume, hok, Bool.not_true, Bool.false_eq_true, if_false]
  cases hp : s.pollTimer with
  | none =>
    rw [hp] at ht
    simp [setStatus, setInterval, truthyTimer, hp, ht]
  | some h =>
    have htr := hs.truthy h hp
    rw [hp] at htr hc
    simp [setStatus, setInterval, htr, hp, clearInterval] at hc ⊢
    exact hc

theorem Inv.after_submitSend {s : State} (hs : Inv s) (files : List String) (profile : String) :
    Inv (submitSend files profile s) := by
  cases files with
  | nil => exact hs.of_same rfl rfl rfl
  | cons f fs => exact hs.of_same rfl rfl rfl

theorem Inv.after_submitResume {s : State} (hs : Inv s) (r : FetchResult UploadPayload) :
    Inv (submitResume r s) := by
  cases r with
  | rejected => exact hs.of_same rfl rfl rfl
  | response code body =>
    cases hok : responseOk code with
    | false =>
      refine hs.of_same ?_ ?_ ?_ <;> simp [submitResume, hok, setStatus]
    | true =>
      cases body with
      | none =>
        refine hs.of_same ?_ ?_ ?_ <;> simp [submitResume, hok, setStatus]
      | some payload =>
        rw [submitResume_ok code payload s hok hs]
        refine ⟨Nat.succ_pos _, ?_, ?_, rfl⟩
        · intro h hh
          cases hh
          exact hs.handle_pos
        · intro h hh
          cases hh
          exact Nat.lt_succ_self _

theorem Inv.after_pollStatusResume {s : State} (hs : Inv s) (j : JsId)
    (r : FetchResult StatusPayload) : Inv (pollStatusResume j r s) := by
  cases r with
  | rejected => exact hs.of_same rfl rfl rfl
  | response code body =>
    cases hok : responseOk code with
    | false =>
      refine hs.of_same ?_ ?_ ?_ <;> simp [pollStatusResume, hok, setStatus]
    | true =>
      cases body with
      | none =>
        refine hs.of_same ?_ ?_ ?_ <;> simp [pollStatusResume, hok, setStatus]
      | some p =>
        rw [pollStatusResume_ok j code p s hok]
        have hc := hs.cleared
        split_ifs
        · exact ⟨hs.handle_pos, fun _ h => (nomatch h), fun _ h => (nomatch h), hc⟩
        · exact ⟨hs.handle_pos, fun _ h => (nomatch h), fun _ h => (nomatch h), hc⟩
        · exact hs.of_same rfl rfl rfl

theorem Inv.after_step {s : State} (hs : Inv s) (e : Event) : Inv (step s e) := by
  cases e with
  | submit files profile => exact hs.after_submitSend files profile
  | uploadSettled r =>
    simp only [step]
    split_ifs
    · have h1 : Inv { s with pendingUploads := s.pendingUploads - 1 } :=
        hs.of_same rfl rfl rfl
      exact h1.after_submitResume r
    · exact hs
  | tick h =>
    simp only [step]
    split_ifs
    · exact hs.of_same rfl rfl rfl
    · exact hs
  | pollSettled j r =>
    simp only [step]
    split_ifs
    · have h1 : Inv { s with pendingPolls := s.pendingPolls.erase j } :=
        hs.of_same rfl rfl rfl
      exact h1.after_pollStatusResume j r
    · exact hs

theorem Inv.after_run {s : State} (hs : Inv s) (tr : List Event) : Inv (run s tr) := by
  induction tr generalizing s with
  | nil => exact hs
  | cons e tr ih => exact ih (hs.after_step e)

theorem Reachable.inv {s : State} (hr : Reachable s) : Inv s := by
  obtain ⟨d, tr, rfl⟩ := hr
  exact (Inv.at_init d).after_run tr

/-- C2: in every state reachable from the initial state by any interleaving of
submits, upload settlements, timer ticks and status settlements, at most one
interval timer is armed: the armed handles are exactly `[h]` when `pollTimer`
holds `h` and there are none when `pollTimer` is `null`. -/
theorem at_most_one_timer (s : State) (hr : Reachable s) :
    (armed s).length ≤ 1 ∧
    (∀ h, s.pollTimer = some h → armed s = [h]) ∧
    (s.pollTimer = none → armed s = []) := by
  have ht := hr.inv.timers_eq
  refine ⟨?_, ?_, ?_⟩
  · cases hp : s.pollTimer <;> rw [hp] at ht <;> simp [armed, ht]
  · intro h hp
    rw [hp] at ht
    simp [armed, ht]
  · intro hp
    rw [hp] at ht
    simp [armed, ht]

theorem at_most_one_timer_witness :
    Reachable pollingState ∧ armed pollingState = [1] :=
  ⟨⟨blankPage, _, rfl⟩,
   (at_most_one_timer pollingState ⟨blankPage, _, rfl⟩).2.1 1 (by decide)⟩

/-! ## Starting a session -/

/-- What a status settlement never touches. -/
theorem pollStatusResume_frame (j : JsId) (r : FetchResult StatusPayload) (s : State) :
    (pollStatusResume j r s).currentJobId = s.currentJobId ∧
    (pollStatusResume j r s).nextHandle = s.nextHandle ∧
    (pollStatusResume j r s).pendingPolls = s.pendingPolls := by
  cases r with
  | rejected => exact ⟨rfl, rfl, rfl⟩
  | response code body =>
    cases hok : responseOk code with
    | false => simp [pollStatusResume, hok, setStatus]
    | true =>
      cases body with
      | none => simp [pollStatusResume, hok, setStatus]
      | some p =>
        rw [pollStatusResume_ok j code p s hok]
        split_ifs <;> exact ⟨rfl, rfl, rfl⟩

/-- An upload settlement that is not a success only rewrites the status text. -/
theorem submitResume_failure (r : FetchResult UploadPayload) (s : State)
    (hr : (Event.uploadSettled r).isUploadSuccess = false) :
    ∃ text, submitResume r s = setStatus text s := by
  cases r with
  | rejected => exact ⟨_, rfl⟩
  | response code body =>
    cases hok : responseOk code with
    | false =>
      clear hr
      refine ⟨strOr (match body with | none => none | some payload => payload.detail)
        "Upload failed.", ?_⟩
      simp [submitResume, hok]
    | true =>
      cases body with
      | none => exact ⟨"Upload failed.", by simp [submitResume, hok]⟩
      | some payload =>
        simp [Event.isUploadSuccess, hok] at hr

theorem step_tick_armed (s : State) (h : Nat) (hh : h ∈ armed s) :
    step s (.tick h) = pollStatusSend s.currentJobId s :=
  if_pos hh

theorem step_currentJobId (s : State) (e : Event) (he : e.isUploadSuccess = false) :
    (step s e).currentJobId = s.currentJobId := by
  cases e with
  | submit files profile => cases files <;> rfl
  | uploadSettled r =>
    simp only [step]
    split_ifs
    · obtain ⟨text, ht⟩ := submitResume_failure r
        { s with pendingUploads := s.pendingUploads - 1 } he
      rw [ht]; rfl
    · rfl
  | tick h =>
    simp only [step]
    split_ifs <;> rfl
  | pollSettled j r =>
    simp only [step]
    split_ifs
    · rw [(pollStatusResume_frame j r _).1]
    · rfl

theorem run_currentJobId (tr : List Event) (s : State)
    (htr : ∀ e ∈ tr, e.isUploadSuccess = false) :
    (run s tr).currentJobId = s.currentJobId := by
  induction tr generalizing s with
  | nil => rfl
  | cons e tr ih =>
    have h1 := ih (step s e) (fun x hx => htr x (List.mem_cons_of_mem _ hx))
    have h2 := step_currentJobId s e (htr e (List.mem_cons_self _ _))
    exact h1.trans h2

/-- Delivery of a successful upload response in a reachable state. -/
theorem step_uploadSuccess (code : Nat) (payload : UploadPayload) (s : State)
    (hr : Reachable s) (hpend : 0 < s.pendingUploads) (hok : responseOk code = true) :
    step s (.uploadSettled (.response code (some payload))) =
      { s with
        dom := { s.dom with
                 statusText := "Uploaded. Job " ++ (JsId.ofField payload.job_id).render ++
                   " queued." },
        currentJobId := JsId.ofField payload.job_id,
        pollTimer := some s.nextHandle,
        timers := [{ id := s.nextHandle, period := 2000 }],
        nextHandle := s.nextHandle + 1,
        pendingUploads := s.pendingUploads - 1 } := by
  have h1 : Inv { s with pendingUploads := s.pendingUploads - 1 } :=
    hr.inv.of_same rfl rfl rfl
  simp only [step, hpend, if_true]
  rw [submitResume_ok code payload _ hok h1]

/-- C9: when the upload request succeeds with `job_id = j`, the handler sets
`currentJobId` to `j` and the status text to "Uploaded. Job j queued.", the
previously armed poll timer (if any) is no longer armed, and exactly one new
interval timer with period 2000 is armed and stored in `pollTimer`; as long as
no later upload succeeds, every tick of an armed timer calls `pollStatus` for
`j`, i.e. issues `GET /api/status/j`. -/
theorem upload_success_starts_session (j : String) (code : Nat) (payload : UploadPayload)
    (s : State) (hr : Reachable s) (hpend : 0 < s.pendingUploads)
    (hok : responseOk code = true) (hj : payload.job_id = some j) :
    (step s (.uploadSettled (.response code (some payload)))).currentJobId = .str j ∧
    (step s (.uploadSettled (.response code (some payload)))).dom.statusText =
        "Uploaded. Job " ++ j ++ " queued." ∧
    (∀ h, s.pollTimer = some h →
        h ∉ armed (step s (.uploadSettled (.response code (some payload))))) ∧
    (step s (.uploadSettled (.response code (some payload)))).timers =
        [{ id := s.nextHandle, period := 2000 }] ∧
    (step s (.uploadSettled (.response code (some payload)))).pollTimer =
        some s.nextHandle ∧
    (∀ tr, (∀ e ∈ tr, e.isUploadSuccess = false) →
      ∀ h, h ∈ armed (run (step s (.uploadSettled (.response code (some payload)))) tr) →
        step (run (step s (.uploadSettled (.response code (some payload)))) tr) (.tick h) =
          pollStatusSend (.str j)
            (run (step s (.uploadSettled (.response code (some payload)))) tr) ∧
        (step (run (step s (.uploadSettled (.response code (some payload)))) tr)
            (.tick h)).requests =
          (run (step s (.uploadSettled (.response code (some payload)))) tr).requests ++
            [{ method := "GET", url := "/api/status/" ++ j }]) := by
  have hs := step_uploadSuccess code payload s hr hpend hok
  have hcur : (step s (.uploadSettled (.response code (some payload)))).currentJobId =
      .str j := by
    rw [hs, hj]; rfl
  refine ⟨hcur, ?_, ?_, ?_, ?_, ?_⟩
  · rw [hs, hj]; rfl
  · intro h hp
    have hlt := hr.inv.timer_lt h hp
    rw [hs]
    simp only [armed, List.map_cons, List.map_nil, List.mem_singleton]
    omega
  · rw [hs]
  · rw [hs]
  · intro tr htr h hh
    have hc := (run_currentJobId tr _ htr).trans hcur
    have hstep : step (run (step s (.uploadSettled (.response code (some payload)))) tr)
        (.tick h) = pollStatusSend (.str j)
          (run (step s (.uploadSettled (.response code (some payload)))) tr) := by
      rw [step_tick_armed _ h hh, hc]
    refine ⟨hstep, ?_⟩
    rw [hstep]
    rfl

theorem upload_success_starts_session_witness :
    (step uploadingState
        (.uploadSettled (.response 200 (some { job_id := some "abc123" })))).dom.statusText =
      "Uploaded. Job " ++ "abc123" ++ " queued." ∧
    (step uploadingState
        (.uploadSettled (.response 200 (some { job_id := some "abc123" })))).timers =
      [{ id := uploadingState.nextHandle, period := 2000 }] ∧
    (step (run (step uploadingState
        (.uploadSettled (.response 200 (some { job_id := some "abc123" })))) []) (.tick 1)).requests =
      (run (step uploadingState
        (.uploadSettled (.response 200 (some { job_id := some "abc123" })))) []).requests ++
        [{ method := "GET", url := "/api/status/" ++ "abc123" }] :=
  have h := upload_success_starts_session "abc123" 200 { job_id := some "abc123" }
    uploadingState ⟨blankPage, _, rfl⟩ (by decide) (by decide) rfl
  ⟨h.2.1, h.2.2.2.1, (h.2.2.2.2.2 [] (fun _ hx => nomatch hx) 1 (by decide)).2⟩

/-! ## Superseding a session -/

theorem step_handles (s : State) (hs : Inv s) (e : Event) :
    s.nextHandle ≤ (step s e).nextHandle ∧
    ((step s e).pollTimer = s.pollTimer ∨ (step s e).pollTimer = none ∨
      (step s e).pollTimer = some s.nextHandle) := by
  cases e with
  | submit files profile => cases files <;> exact ⟨le_refl _, Or.inl rfl⟩
  | uploadSettled r =>
    by_cases hsucc : (Event.uploadSettled r).isUploadSuccess = true
    · by_cases hpend : 0 < s.pendingUploads
      · cases r with
        | rejected => simp [Event.isUploadSuccess] at hsucc
        | response code body =>
          cases body with
          | none => simp [Event.isUploadSuccess] at hsucc
          | some payload =>
            have hok : responseOk code = true := by
              simpa [Event.isUploadSuccess] using hsucc
            have h1 : Inv { s with pendingUploads := s.pendingUploads - 1 } :=
              hs.of_same rfl rfl rfl
            simp only [step, hpend, if_true]
            rw [submitResume_ok code payload _ hok h1]
            exact ⟨Nat.le_succ _, Or.inr (Or.inr rfl)⟩
      · rw [show step s (.uploadSettled r) = s from if_neg hpend]
        exact ⟨le_refl _, Or.inl rfl⟩
    · have hf : (Event.uploadSettled r).isUploadSuccess = false := by
        simpa using hsucc
      simp only [step]
      split_ifs
      · obtain ⟨text, ht⟩ := submitResume_failure r
          { s with pendingUploads := s.pendingUploads - 1 } hf
        rw [ht]
        exact ⟨le_refl _, Or.inl rfl⟩
      · exact ⟨le_refl _, Or.inl rfl⟩
  | tick h =>
    simp only [step]
    split_ifs <;> exact ⟨le_refl _, Or.inl rfl⟩
  | pollSettled j r =>
    simp only [step]
    split_ifs
    · refine ⟨le_of_eq (pollStatusResume_frame j r
        { s with pendingPolls := s.pendingPolls.erase j }).2.1.symm, ?_⟩
      cases r with
      | rejected => exact Or.inl rfl
      | response code body =>
        cases hok : responseOk code with
        | false => left; simp [pollStatusResume, hok, setStatus]
        | true =>
          cases body with
          | none => left; simp [pollStatusResume, hok, setStatus]
          | some p =>
            rw [pollStatusResume_ok j code p _ hok]
            split_ifs
            · exact Or.inr (Or.inl rfl)
            · exact Or.inr (Or.inl rfl)
            · exact Or.inl rfl
    · exact ⟨le_refl _, Or.inl rfl⟩

theorem Retired.keep_step {h : Nat} {s : State} (hs : Inv s) (hr : Retired h s) (e : Event) :
    Retired h (step s e) := by
  obtain ⟨hle, hcases⟩ := step_handles s hs e
  refine ⟨lt_of_lt_of_le hr.1 hle, ?_⟩
  rcases hcases with hc | hc | hc
  · rw [hc]; exact hr.2
  · rw [hc]; exact fun hx => nomatch hx
  · rw [hc]
    intro hx
    have := hr.1
    cases hx
    omega

theorem Retired.keep_run {h : Nat} (tr : List Event) {s : State} (hs : Inv s) (hr : Retired h s) :
    Retired h (run s tr) := by
  induction tr generalizing s with
  | nil => exact hr
  | cons e tr ih => exact ih (hs.after_step e) (hr.keep_step hs e)

theorem Retired.not_armed {h : Nat} {s : State} (hs : Inv s) (hr : Retired h s) :
    h ∉ armed s := by
  have ht := hs.timers_eq
  cases hp : s.pollTimer with
  | none =>
    rw [hp] at ht
    simp [armed, ht]
  | some t =>
    rw [hp] at ht
    have hne : h ≠ t := fun hx => hr.2 (by rw [hp, hx])
    simp [armed, ht, hne]

/-- An upload settlement that does not hand out the job id `a` leaves the
current job different from `a` and the outstanding status requests alone. -/
theorem submitResume_other_job (a : JsId) (r : FetchResult UploadPayload) (s : State)
    (hr : (Event.uploadSettled r).assignsJob a = false) (hc : s.currentJobId ≠ a) :
    (submitResume r s).currentJobId ≠ a ∧
    (submitResume r s).pendingPolls = s.pendingPolls := by
  cases r with
  | rejected => exact ⟨hc, rfl⟩
  | response code body =>
    cases hok : responseOk code with
    | false =>
      clear hr
      simp only [submitResume, hok, Bool.not_false, if_true]
      exact ⟨hc, rfl⟩
    | true =>
      cases body with
      | none =>
        simp only [submitResume, hok, Bool.not_true, Bool.false_eq_true, if_false]
        exact ⟨hc, rfl⟩
      | some payload =>
        have hne : JsId.ofField payload.job_id ≠ a := by
          simpa [Event.assignsJob, hok] using hr
        simp only [submitResume, hok, Bool.not_true, Bool.false_eq_true, if_false]
        split_ifs <;> simp [setStatus, setInterval, hne]

/-- Under an event that does not hand out the job id `a`, the current job
stays different from `a` and no status request for `a` is added. -/
theorem step_other_job (a : JsId) (s : State) (e : Event) (he : e.assignsJob a = false)
    (hc : s.currentJobId ≠ a) :
    (step s e).currentJobId ≠ a ∧
    (step s e).pendingPolls.count a ≤ s.pendingPolls.count a := by
  cases e with
  | submit files profile => cases files <;> exact ⟨hc, le_refl _⟩
  | uploadSettled r =>
    simp only [step]
    split_ifs
    · have h1 := submitResume_other_job a r
        { s with pendingUploads := s.pendingUploads - 1 } he hc
      exact ⟨h1.1, le_of_eq (congrArg (List.count a) h1.2)⟩
    · exact ⟨hc, le_refl _⟩
  | tick h =>
    simp only [step]
    split_ifs
    · refine ⟨hc, ?_⟩
      simp only [pollStatusSend, List.count_append, List.count_singleton]
      have hne : (s.currentJobId == a) = false := by
        simpa using hc
      simp [hne]
    · exact ⟨hc, le_refl _⟩
  | pollSettled j r =>
    simp only [step]
    split_ifs
    · have hf := pollStatusResume_frame j r { s with pendingPolls := s.pendingPolls.erase j }
      rw [hf.1, hf.2.2]
      exact ⟨hc, (List.erase_sublist j s.pendingPolls).count_le a⟩
    · exact ⟨hc, le_refl _⟩

theorem run_other_job (a : JsId) (tr : List Event) (s : State)
    (htr : ∀ e ∈ tr, e.assignsJob a = false) (hc : s.currentJobId ≠ a) :
    (run s tr).currentJobId ≠ a ∧
    (run s tr).pendingPolls.count a ≤ s.pendingPolls.count a := by
  induction tr generalizing s with
  | nil => exact ⟨hc, le_refl _⟩
  | cons e tr ih =>
    have h1 := step_other_job a s e (htr e (List.mem_cons_self _ _)) hc
    have h2 := ih (step s e) (fun x hx => htr x (List.mem_cons_of_mem _ hx)) h1.1
    exact ⟨h2.1, le_trans h2.2 h1.2⟩

/-- C3, as stated, fails: with job `b` current (timer `2` armed) and a status
request for job `a` still outstanding, the settlement of that request rewrites
the status text and the download link for job `a` and cancels the timer of job
`b`. -/
theorem stale_response_updates_ui :
    supersededState.currentJobId = .str "b" ∧
    supersededState.pollTimer = some 2 ∧ armed supersededState = [2] ∧
    supersededState.pendingPolls = [.str "a"] ∧
    supersededState.dom.statusText = "Uploaded. Job b queued." ∧
    (step supersededState
      (.pollSettled (.str "a")
        (.response 200 (some { status := "done", download_url := some "/download/a" })))
      ).dom.statusText = "Done. Job a ready." ∧
    (step supersededState
      (.pollSettled (.str "a")
        (.response 200 (some { status := "done", download_url := some "/download/a" })))
      ).dom.downloadHref = "/download/a" ∧
    (step supersededState
      (.pollSettled (.str "a")
        (.response 200 (some { status := "done", download_url := some "/download/a" })))
      ).pollTimer = none ∧
    armed (step supersededState
      (.pollSettled (.str "a")
        (.response 200 (some { status := "done", download_url := some "/download/a" })))
      ) = [] := by
  decide

/-- C3 (amended): when the upload response for a second job `b` is handled
while a poll session is active, the first session's timer is cancelled and its
handle is never armed again, in any later trace.  As long as no later upload
succeeds, every tick issues a status request for `b`.  For every job id `a`
other than `b` (the first job in particular) and every later trace in which no
successful upload response hands out the id `a` again, other successful
uploads included: the current job is never `a`, the status requests
outstanding for `a` never grow beyond those outstanding when the upload
response for `b` was handled, and if none was outstanding then, every status
settlement for `a` leaves the whole state (page, `pollTimer`, timers)
unchanged. -/
theorem second_upload_supersedes (b : String) (code : Nat) (payload : UploadPayload)
    (s s1 : State) (hr : Reachable s) (hpend : 0 < s.pendingUploads)
    (hok : responseOk code = true) (hb : payload.job_id = some b)
    (hs1 : s1 = step s (.uploadSettled (.response code (some payload)))) :
    (∀ h, s.pollTimer = some h → ∀ tr, h ∉ armed (run s1 tr)) ∧
    (∀ tr, (∀ e ∈ tr, e.isUploadSuccess = false) →
      ∀ h, h ∈ armed (run s1 tr) →
        step (run s1 tr) (.tick h) = pollStatusSend (.str b) (run s1 tr)) ∧
    (∀ a : JsId, a ≠ .str b →
      ∀ tr, (∀ e ∈ tr, e.assignsJob a = false) →
        (run s1 tr).currentJobId ≠ a ∧
        (run s1 tr).pendingPolls.count a ≤ s.pendingPolls.count a ∧
        (a ∉ s.pendingPolls →
          ∀ r, step (run s1 tr) (.pollSettled a r) = run s1 tr)) := by
  have hs := step_uploadSuccess code payload s hr hpend hok
  rw [← hs1] at hs
  have hinv : Inv s1 := by
    rw [hs1]; exact hr.inv.after_step _
  have hcur : s1.currentJobId = .str b := by
    rw [hs, hb]; rfl
  refine ⟨?_, ?_, ?_⟩
  · intro h hp tr
    have hlt := hr.inv.timer_lt h hp
    have hret : Retired h s1 := by
      rw [hs]
      refine ⟨Nat.lt_succ_of_lt hlt, ?_⟩
      intro hx
      cases hx
      exact lt_irrefl _ hlt
    exact (hret.keep_run tr hinv).not_armed (hinv.after_run tr)
  · intro tr htr h hh
    rw [step_tick_armed _ h hh, (run_currentJobId tr s1 htr).trans hcur]
  · intro a ha tr htr
    have hc1 : s1.currentJobId ≠ a := by
      rw [hcur]; exact fun hx => ha hx.symm
    have hp1 : s1.pendingPolls = s.pendingPolls := by
      rw [hs]
    have hrun := run_other_job a tr s1 htr hc1
    rw [hp1] at hrun
    refine ⟨hrun.1, hrun.2, ?_⟩
    intro hnot r
    have hzero : s.pendingPolls.count a = 0 := List.count_eq_zero.mpr hnot
    have hnone : a ∉ (run s1 tr).pendingPolls :=
      List.count_eq_zero.mp (Nat.le_zero.mp (hzero ▸ hrun.2))
    exact if_neg hnone

theorem second_upload_supersedes_witness :
    resubmittedState.pollTimer = some 1 ∧ armed resubmittedState = [1] ∧
    resubmittedState.currentJobId = .str "a" ∧
    1 ∉ armed (run (step resubmittedState
        (.uploadSettled (.response 200 (some { job_id := some "b" }))))
        [.tick 2, .submit ["c.png"] "web",
         .uploadSettled (.response 200 (some { job_id := some "c" })), .tick 3]) ∧
    step (run (step resubmittedState
        (.uploadSettled (.response 200 (some { job_id := some "b" }))))
        [.tick 2, .submit ["c.png"] "web",
         .uploadSettled (.response 200 (some { job_id := some "c" })), .tick 3])
        (.pollSettled (.str "a") (.response 200 (some { status := "done" }))) =
      run (step resubmittedState
        (.uploadSettled (.response 200 (some { job_id := some "b" }))))
        [.tick 2, .submit ["c.png"] "web",
         .uploadSettled (.response 200 (some { job_id := some "c" })), .tick 3] :=
  have h := second_upload_supersedes "b" 200 { job_id := some "b" } resubmittedState _
    ⟨blankPage, _, rfl⟩ (by decide) (by decide) rfl rfl
  ⟨by decide, by decide, by decide,
   h.1 1 (by decide)
     [.tick 2, .submit ["c.png"] "web",
      .uploadSettled (.response 200 (some { job_id := some "c" })), .tick 3],
   (h.2.2 (.str "a") (by decide)
     [.tick 2, .submit ["c.png"] "web",
      .uploadSettled (.response 200 (some { job_id := some "c" })), .tick 3]
     (by decide)).2.2 (by decide) (.response 200 (some { status := "done" }))⟩

end SizeReducer
